import Mathlib

/-!
# React-Learning-Path: a shallow embedding of the exercises

Each exercise of the repository is a small React component.  A component is
embedded as

* a state record (one field per `useState` cell or `this.state` key),
* its event handlers, as functions on a `React.Container` (the committed
  state together with the queue of writes requested since the last commit),
* the part of its render function that the properties below talk about.

JavaScript numbers are IEEE-754 doubles.  `JS.Value` holds the integer-valued
ones, the two infinities and `NaN`; sums and products are rounded to the
nearest double as the language does.  Fractional numbers are not represented,
and the negative zero is identified with zero.
-/

namespace JS

/-- The JavaScript values that the state cells of the exercises are modelled
to hold: integer-valued finite numbers, the infinities, `NaN`, and strings. -/
inductive Value where
  | num (n : Int)
  | inf (negative : Bool)
  | nan
  | str (s : String)
  deriving DecidableEq, Repr

/-- The natural number nearest to `n` that a double can hold, that is, that
has at most 53 significant bits (`shift` is the number of binary digits
beyond 53); a tie goes to the even significand. -/
def roundToDouble (n : Nat) : Nat :=
  if n ≤ 2 ^ 53 then n
  else
    let shift := (Nat.toDigits 2 n).length - 53
    let q := n / 2 ^ shift
    let r := n % 2 ^ shift
    let half := 2 ^ (shift - 1)
    if r < half then q * 2 ^ shift
    else if half < r then (q + 1) * 2 ^ shift
    else if q % 2 = 0 then q * 2 ^ shift
    else (q + 1) * 2 ^ shift

/-- The magnitude `2 ^ 1024`, from which on a rounded result is infinite. -/
def overflowBound : Nat := 2 ^ 256 * 2 ^ 256 * 2 ^ 256 * 2 ^ 256

/-- The Number value of an exact integer result: rounded to the nearest
double, and infinite once the rounded magnitude reaches `2 ^ 1024`. -/
def ofInt (z : Int) : Value :=
  if overflowBound ≤ roundToDouble z.natAbs then .inf (decide (z < 0))
  else if z < 0 then .num (-(roundToDouble z.natAbs : Int))
  else .num (roundToDouble z.natAbs)

/-- The decimal with the fewest significant digits whose Number value is the
double `x`, as `Number::toString` chooses it: for 1 to 17 digits in turn, the
two neighbours of `x` with that many digits are tried, the nearer one first. -/
def shortestDecimal (x : Nat) : Nat :=
  let d := (Nat.toDigits 10 x).length
  let pick := (List.range 17).findSome? fun i =>
    let unit := 10 ^ (d - (i + 1))
    let lo := x / unit * unit
    let hi := lo + unit
    if roundToDouble lo = x ∧ roundToDouble hi = x then
      some (if x - lo ≤ hi - x then lo else hi)
    else if roundToDouble lo = x then some lo
    else if roundToDouble hi = x then some hi
    else none
  pick.getD x

/-- The exponent form in which `Number::toString` prints a double from `1e21`
up: the significant digits, a point after the first, `e+` and the exponent. -/
def exponentForm (x : Nat) : String :=
  let digits := Nat.toDigits 10 (shortestDecimal x)
  match (digits.reverse.dropWhile (· == '0')).reverse with
  | [] => "0"
  | [c] => String.mk [c] ++ "e+" ++ toString (digits.length - 1)
  | c :: rest => String.mk (c :: '.' :: rest) ++ "e+" ++ toString (digits.length - 1)

/-- JavaScript `ToString` on the modelled values: an integer below `1e21` is
printed with all its digits, a larger one in exponent form. -/
def Value.toJsString : Value → String
  | .num n =>
    if n.natAbs < 10 ^ 21 then toString n
    else if n < 0 then "-" ++ exponentForm n.natAbs
    else exponentForm n.natAbs
  | .inf false => "Infinity"
  | .inf true => "-Infinity"
  | .nan => "NaN"
  | .str s => s

/-- Value of a run of decimal digits, `none` if some character is not a digit. -/
def digitsValue : List Char → Option Nat
  | [] => some 0
  | c :: cs =>
    if c.isDigit then
      (digitsValue cs).map fun v => (c.toNat - 48) * 10 ^ cs.length + v
    else none

/-- An unsigned integer literal: a non-empty run of decimal digits. -/
def unsignedLiteral (cs : List Char) : Option Nat :=
  if cs.isEmpty then none else digitsValue cs

/-- Strip leading and trailing white space from a list of characters. -/
def trimChars (cs : List Char) : List Char :=
  ((cs.dropWhile Char.isWhitespace).reverse.dropWhile Char.isWhitespace).reverse

/-- The Number value of a literal whose sign has been read: `Infinity`, or a
run of decimal digits; `NaN` for anything else. -/
def signedLiteral (negative : Bool) (cs : List Char) : Value :=
  if cs = "Infinity".toList then .inf negative
  else
    match unsignedLiteral cs with
    | some v => ofInt (if negative then -(v : Int) else v)
    | none => .nan

/-- JavaScript `ToNumber` on a string, for the integer model: white space is
trimmed, the empty string is `0`, an optionally signed run of decimal digits is
that integer rounded to a double, `Infinity` is infinite.  Every other string
is mapped to `NaN`; literals with a fraction, an exponent or a leading radix
mark denote numbers that are not evaluated here, and no property below
evaluates `stringToNumber` on one. -/
def stringToNumber (s : String) : Value :=
  match trimChars s.toList with
  | [] => .num 0
  | '-' :: cs => signedLiteral true cs
  | '+' :: cs => signedLiteral false cs
  | cs => signedLiteral false cs

/-- JavaScript `ToNumber` on the modelled values. -/
def Value.toNumber : Value → Value
  | .num n => .num n
  | .inf negative => .inf negative
  | .nan => .nan
  | .str s => stringToNumber s

/-- The JavaScript binary `+`: string concatenation as soon as one operand is
a string, addition of doubles otherwise. -/
def add : Value → Value → Value
  | .str s, v => .str (s ++ v.toJsString)
  | v, .str s => .str (v.toJsString ++ s)
  | .num a, .num b => ofInt (a + b)
  | .inf negative, .num _ => .inf negative
  | .num _, .inf negative => .inf negative
  | .inf negative, .inf other => if negative = other then .inf negative else .nan
  | _, _ => .nan

/-- The JavaScript binary `*`: both operands go through `ToNumber`, then the
doubles are multiplied. -/
def mul (a b : Value) : Value :=
  match a.toNumber, b.toNumber with
  | .num x, .num y => ofInt (x * y)
  | .inf negative, .inf other => .inf (negative != other)
  | .inf negative, .num y => if y = 0 then .nan else .inf (negative != decide (y < 0))
  | .num x, .inf negative => if x = 0 then .nan else .inf (decide (x < 0) != negative)
  | _, _ => .nan

/-- `Object.is` on the modelled values (used by React to compare hook
dependencies): structural equality, with `NaN` equal to itself. -/
def objectIs (a b : Value) : Bool := decide (a = b)

/-- A value built by `JSON.parse`.  A number is kept as its literal: the
exercises never compute with a parsed number. -/
inductive Json where
  | null
  | bool (b : Bool)
  | number (literal : String)
  | string (s : String)
  | array (items : List Json)
  | object (members : List (String × Json))

/-- The own property `name` of a parsed value, `none` for `undefined`: only an
object has members, and of a repeated member `JSON.parse` keeps the last. -/
def Json.member (name : String) : Json → Option Json
  | .object members => members.reverse.lookup name
  | _ => none

/-- `Array.prototype.map` from position `index` on, with a callback that may
throw: the elements are visited in order together with their index, and the
first exception ends the call. -/
def arrayMap {α β ε : Type} (callback : α → Nat → Except ε β) (index : Nat) :
    List α → Except ε (List β)
  | [] => .ok []
  | x :: rest => do
    let y ← callback x index
    let ys ← arrayMap callback (index + 1) rest
    pure (y :: ys)

end JS

namespace React

/-- A state container: the committed state that the current render (and every
handler closure created by it) reads, and the writes requested since the last
commit, oldest first. -/
structure Container (σ : Type) where
  state : σ
  queue : List (σ → σ)

/-- A container right after a commit: nothing is pending. -/
def Container.committed {σ : Type} (s : σ) : Container σ := ⟨s, []⟩

/-- A setter call: the write is queued, the committed state is not touched. -/
def Container.write {σ : Type} (u : σ → σ) (c : Container σ) : Container σ :=
  { c with queue := c.queue ++ [u] }

/-- The next render pass: the queued writes are applied in order. -/
def Container.commit {σ : Type} (c : Container σ) : Container σ :=
  ⟨c.queue.foldl (fun s u => u s) c.state, []⟩

end React

open React

/-! ## calculating-sum: `parent.jsx` -/

namespace Parent

/-- The two `useState` cells of `Parent`. -/
structure State where
  num1 : JS.Value
  num2 : JS.Value
  deriving DecidableEq, Repr

/-- The state at mount: `useState(0)` twice. -/
def init : State := ⟨.num 0, .num 0⟩

/-- The setter `setNum1` handed to `Child1`. -/
def setNum1 (v : JS.Value) (c : Container State) : Container State :=
  c.write fun s => { s with num1 := v }

/-- The setter `setNum2` handed to `Child2`. -/
def setNum2 (v : JS.Value) (c : Container State) : Container State :=
  c.write fun s => { s with num2 := v }

/-- The expression `num1 + num2` of the sum heading. -/
def sum (s : State) : JS.Value := JS.add s.num1 s.num2

/-- Text of `<h1>Sum: {num1 + num2}</h1>`. -/
def sumHeading (s : State) : String := "Sum: " ++ (sum s).toJsString

end Parent

/-! ## class-lifecycles: `classCOmponent.jsx` -/

namespace Classcomponent

/-- The object `this.state`. -/
structure State where
  count : Nat
  deriving DecidableEq, Repr

/-- The state set by the constructor: `{count:0}`. -/
def initialState : State := ⟨0⟩

/-- The handler `increase`: `this.setState({count:this.state.count+1})`; the
value written is computed from `this.state` as it is when the handler runs. -/
def increase (c : Container State) : Container State :=
  c.write fun s => { s with count := c.state.count + 1 }

/-- One click on the `Add` button, followed by the commit it schedules. -/
def click (c : Container State) : Container State := (increase c).commit

/-- Text of the heading returned by `render()`. -/
def render (s : State) : String := "coount is " ++ toString s.count

end Classcomponent

/-! ## class-lifecycles: `timer.jsx` -/

namespace Timer

/-- Where the instance is in its life: built by the constructor, committed to
the tree, or removed from it. -/
inductive Phase where
  | constructed
  | mounted
  | unmounted
  deriving DecidableEq, Repr

/-- A `Timer` instance together with the part of the host it talks to:
`this.state.seconds`, the field `this.interval` (undefined until mount), the
ids of the intervals of this instance that the host still fires, and the id
the host hands out at the next `setInterval`. -/
structure Instance where
  seconds : Nat
  interval : Option Nat
  timers : List Nat
  nextId : Nat
  phase : Phase
  deriving DecidableEq, Repr

/-- The constructor: `this.state = { seconds: 0 }`; no interval exists yet. -/
def init (nextId : Nat) : Instance := ⟨0, none, [], nextId, .constructed⟩

/-- The callback handed to `setInterval`: `seconds` becomes `seconds + 1`. -/
def intervalCallback (t : Instance) : Instance :=
  { t with seconds := t.seconds + 1 }

/-- The hook `componentDidMount`: `this.interval = setInterval(..., 1000)`. -/
def componentDidMount (t : Instance) : Instance :=
  { t with interval := some t.nextId, timers := t.nextId :: t.timers, nextId := t.nextId + 1 }

/-- The hook `componentWillUnmount`: `clearInterval(this.interval)`; clearing
an undefined handle does nothing. -/
def componentWillUnmount (t : Instance) : Instance :=
  match t.interval with
  | some id => { t with timers := t.timers.erase id }
  | none => t

/-- Whether the handle stored in `this.interval` is still fired by the host. -/
def active (t : Instance) : Bool :=
  match t.interval with
  | some id => t.timers.contains id
  | none => false

/-- What can happen to an instance: React mounts it, a second elapses, React
unmounts it. -/
inductive Event where
  | mount
  | tick
  | unmount
  deriving DecidableEq, Repr

/-- One step.  React runs `componentDidMount` once, after the first commit,
and `componentWillUnmount` once, before removal; a lifecycle event outside
that order does not reach the instance.  When a second elapses the host runs
the callback of every interval that is still active, each in its own task. -/
def step (t : Instance) : Event → Instance
  | .mount =>
    if t.phase = .constructed then { componentDidMount t with phase := .mounted } else t
  | .unmount =>
    if t.phase = .mounted then { componentWillUnmount t with phase := .unmounted } else t
  | .tick => t.timers.foldl (fun s _ => intervalCallback s) t

/-- Run a sequence of events, oldest first. -/
def run (t : Instance) (es : List Event) : Instance := es.foldl step t

/-- The lifecycle invariant of `Timer`: exactly the interval stored in
`this.interval` is active while mounted, and none before mount or after
unmount. -/
def Inv (t : Instance) : Prop :=
  match t.phase with
  | .constructed => t.timers = [] ∧ t.interval = none
  | .mounted => ∃ id, t.interval = some id ∧ t.timers = [id]
  | .unmounted => t.timers = []

end Timer

/-! ## memo-callback: `memo.jsx` -/

namespace React

/-- What `useMemo` keeps between renders: the dependency value of the last
computation, its result, and how many computations have run so far. -/
structure MemoCache where
  dep : JS.Value
  result : JS.Value
  computations : Nat
  deriving DecidableEq, Repr

/-- The hook `useMemo(callback, [dep])` with one dependency: on the first
render, and whenever the dependency is not `Object.is`-equal to the cached one,
the callback runs (on the console `w`) and its result is cached; otherwise the
cached result is returned and the callback does not run. -/
def useMemo (callback : List String → JS.Value × List String) (dep : JS.Value)
    (cache : Option MemoCache) (w : List String) : MemoCache × List String :=
  match cache with
  | none => (⟨dep, (callback w).1, 1⟩, (callback w).2)
  | some c =>
    if JS.objectIs c.dep dep then (c, w)
    else (⟨dep, (callback w).1, c.computations + 1⟩, (callback w).2)

end React

namespace Memo

/-- The two `useState` cells of `Memo`. -/
structure State where
  name : String
  number : JS.Value
  deriving DecidableEq, Repr

/-- The state at mount: `useState("")` and `useState(0)`. -/
def init : State := ⟨"", .num 0⟩

/-- The function handed to `useMemo`: it logs, then returns `number *10000`. -/
def callback (number : JS.Value) (console : List String) : JS.Value × List String :=
  (JS.mul number (.num 10000), console ++ ["number is calclulating"])

/-- A mounted `Memo`: its state container, the `useMemo` slot (empty before
the first render), the console, and the value shown in the `<h1>` by the last
render. -/
structure Instance where
  container : Container State
  cache : Option MemoCache
  console : List String
  handle : JS.Value

/-- One render pass of `Memo` on the committed state: `handle` is
`useMemo(..., [number])` and is what the `<h1>` shows. -/
def render (m : Instance) : Instance :=
  let r := useMemo (callback m.container.state.number) m.container.state.number m.cache m.console
  { m with cache := some r.1, console := r.2, handle := r.1.result }

/-- The component before its first render. -/
def created : Instance := ⟨.committed init, none, [], .num 0⟩

/-- The component after its first render. -/
def mounted : Instance := render created

/-- The user actions: typing in the text input, typing in the number input,
clicking the `+` button. -/
inductive Event where
  | changeName (value : String)
  | changeNumber (value : String)
  | plus
  deriving DecidableEq, Repr

/-- The three inline handlers: `setName(e.target.value)`,
`setNumber(e.target.value)` (the value of an input is a string) and
`setNumber(number + 1)` (with `number` as the current render read it). -/
def handler (c : Container State) : Event → Container State
  | .changeName value => c.write fun s => { s with name := value }
  | .changeNumber value => c.write fun s => { s with number := .str value }
  | .plus => c.write fun s => { s with number := JS.add c.state.number (.num 1) }

/-- One user action: the handler runs, the write is committed, the component
renders again. -/
def dispatch (m : Instance) (e : Event) : Instance :=
  render { m with container := (handler m.container e).commit }

/-- A sequence of user actions on the mounted component, oldest first. -/
def run (es : List Event) : Instance := es.foldl dispatch mounted

/-- How many times the memoized computation has run so far. -/
def computations (m : Instance) : Nat :=
  match m.cache with
  | some c => c.computations
  | none => 0

/-- A component between two renders: committed state `s`, nothing pending. -/
def idle (s : State) (cache : Option MemoCache) (console : List String) (handle : JS.Value) :
    Instance := ⟨.committed s, cache, console, handle⟩

/-- The next render of `m` once its committed state has become `s`. -/
def rerender (m : Instance) (s : State) : Instance :=
  render { m with container := .committed s }

end Memo

/-! ## Rendered list items -/

namespace React

/-- A rendered `<li>`: its `key` and its text. -/
structure Li where
  key : JS.Value
  text : String
  deriving DecidableEq, Repr

end React

/-! ## list-keys: `App.jsx` -/

namespace ListKeys

/-- A record of `listwithids`. -/
structure Fruit where
  id : Nat
  name : String
  deriving DecidableEq, Repr

/-- The constant `listwithids`. -/
def listwithids : List Fruit :=
  [⟨1, "apple"⟩, ⟨2, "banana"⟩, ⟨3, "cherry"⟩, ⟨4, "date"⟩, ⟨5, "elderberry"⟩]

/-- The constant `listwithoutids`. -/
def listwithoutids : List String :=
  ["apple", "banana", "cherry", "date", "elderberry"]

/-- The callback of the first `map`:
`<li key={fruit.id}>{fruit.name} id is {fruit.id}</li>`. -/
def liWithId (fruit : Fruit) : Li :=
  ⟨.num fruit.id, fruit.name ++ " id is " ++ toString fruit.id⟩

/-- The callback of the second `map`: `<li key={fruit}>{fruit}</li>`. -/
def liWithoutId (fruit : String) : Li := ⟨.str fruit, fruit⟩

/-- What `App` returns: the items of the first list, then those of the second. -/
def App : List Li × List Li :=
  (listwithids.map liWithId, listwithoutids.map liWithoutId)

end ListKeys

/-! ## fetchapi: `fetch.jsx` -/

namespace FetchData

/-- The ways the request, the parse or a property access can fail. -/
inductive Failure where
  | rejected
  | syntaxError
  | typeError
  deriving DecidableEq, Repr

/-- A settled HTTP response: what `response.json()` resolves or rejects with. -/
structure Response where
  json : Except Failure JS.Json

/-- The single `useState` cell of `FetchData`: any parsed value, or `none` for
`undefined`. -/
structure State where
  users : Option JS.Json

/-- The state at mount: `useState([])`. -/
def init : State := ⟨some (.array [])⟩

/-- The setter `setUsers`. -/
def setUsers (v : Option JS.Json) (c : Container State) : Container State :=
  c.write fun s => { s with users := v }

/-- The property access `data.users`: it throws on `null`; no primitive and no
array has a property of that name. -/
def dataUsers : JS.Json → Except Failure (Option JS.Json)
  | .null => .error .typeError
  | data => .ok (data.member "users")

/-- The async function `fetchData`, given how the request settles: each
`await` passes a rejection on, and nothing in the body catches one. -/
def fetchData (request : Except Failure Response) (c : Container State) :
    Except Failure (Container State) := do
  let response ← request
  let data ← response.json
  let users ← dataUsers data
  pure (setUsers users c)

/-- The component after the effect has settled: its state container, and the
rejection that nobody handled, if any. -/
structure Settled where
  container : Container State
  unhandledRejection : Option Failure

/-- The effect `useEffect(()=>{ fetchData(); },[])`: the promise returned by
`fetchData` is dropped, so a rejection stays unhandled and writes nothing. -/
def effect (request : Except Failure Response) (c : Container State) : Settled :=
  match fetchData request c with
  | .ok c1 => ⟨c1, none⟩
  | .error e => ⟨c, some e⟩

/-- A returned `<li>`: its `key` and the value of its child expression. -/
structure Item where
  key : Nat
  child : Option JS.Json

/-- The property access `user.firstName`: it throws on `null`; no primitive
and no array has a property of that name. -/
def firstName : JS.Json → Except Failure (Option JS.Json)
  | .null => .error .typeError
  | user => .ok (user.member "firstName")

/-- The callback of `users.map`: `<li key={index}>{user.firstName}</li>`. -/
def li (user : JS.Json) (index : Nat) : Except Failure Item := do
  let child ← firstName user
  pure ⟨index, child⟩

/-- The list items of an array of users: `users.map((user,index)=>...)`. -/
def renderList (users : List JS.Json) : Except Failure (List Item) :=
  JS.arrayMap li 0 users

/-- The list part of the render function: only an array has a `map` method,
so `users.map` throws on every other value. -/
def render (s : State) : Except Failure (List Item) :=
  match s.users with
  | some (.array users) => renderList users
  | _ => .error .typeError

/-- The state the first render after the effect reads. -/
def stateAfter (request : Except Failure Response) : State :=
  (effect request (.committed init)).container.commit.state

/-- The key of the item that a rendering of `users` makes from the element at
position `i`. -/
def keyAt (users : List JS.Json) (i : Nat) : Option Nat :=
  match renderList users with
  | .ok items => items[i]?.map Item.key
  | .error _ => none

/-- A sample record of the remote API. -/
def emily : JS.Json := .object [("id", .number "1"), ("firstName", .string "Emily")]

/-- Another sample record of the remote API. -/
def michael : JS.Json := .object [("id", .number "2"), ("firstName", .string "Michael")]

/-- The outcomes in which the fetch fails: the request is rejected, the body is
not valid JSON, or what was parsed has no `users` array. -/
def failureOutcome : Except Failure Response → Bool
  | .error _ => true
  | .ok response =>
    match response.json with
    | .error _ => true
    | .ok data =>
      match data.member "users" with
      | some (.array _) => false
      | _ => true

end FetchData

/-! ## form-with-controlled-inputs: `form.jsx` -/

namespace Form

/-- The four `useState` cells of `Form`. -/
structure State where
  name : String
  email : String
  password : String
  loggedin : Bool
  deriving DecidableEq, Repr

/-- The state at mount. -/
def init : State := ⟨"", "", "", false⟩

/-- The part of a submit event the handler touches. -/
structure SubmitEvent where
  defaultPrevented : Bool
  deriving DecidableEq, Repr

/-- The handler `handleSubmit`: `e.preventDefault()`, then
`setLoggedin(!loggedin)` with `loggedin` as the current render read it. -/
def handleSubmit (e : SubmitEvent) (c : Container State) : SubmitEvent × Container State :=
  ({ e with defaultPrevented := true },
   c.write fun s => { s with loggedin := !c.state.loggedin })

end Form

/-! ## conditional: `App.jsx` -/

namespace Conditional

/-- The single `useState` cell of `App`. -/
structure State where
  isLoggedIn : Bool
  deriving DecidableEq, Repr

/-- The state at mount: `useState(false)`. -/
def init : State := ⟨false⟩

/-- The handler `handleLogin`: `setIsLoggedIn(!isLoggedIn)` with `isLoggedIn`
as the current render read it. -/
def handleLogin (c : Container State) : Container State :=
  c.write fun s => { s with isLoggedIn := !c.state.isLoggedIn }

end Conditional

/-! ## Handlers invoked once or twice for one user action -/

namespace React

/-- The state after a handler ran once and its write was committed. -/
def once {σ : Type} (h : Container σ → Container σ) (s : σ) : σ :=
  (h (.committed s)).commit.state

/-- The state after a handler ran twice, with a commit after each run: the
second run reads the state the first one left. -/
def twiceCommitted {σ : Type} (h : Container σ → Container σ) (s : σ) : σ :=
  (h (h (.committed s)).commit).commit.state

/-- The state after a handler ran twice inside one batch: both runs read the
state of the same render, and one commit follows. -/
def twiceBatched {σ : Type} (h : Container σ → Container σ) (s : σ) : σ :=
  (h (h (.committed s))).commit.state

end React

/-! # Properties -/

section Helpers

theorem React.commit_write_committed {σ : Type} (u : σ → σ) (s : σ) :
    ((Container.committed s).write u).commit = Container.committed (u s) := rfl

theorem Classcomponent.click_committed (s : Classcomponent.State) :
    Classcomponent.click (.committed s) = .committed ⟨s.count + 1⟩ := rfl

theorem Classcomponent.iterate_click (n : Nat) :
    Classcomponent.click^[n] (.committed Classcomponent.initialState) = .committed ⟨n⟩ := by
  induction n with
  | zero => rfl
  | succ k ih =>
    rw [Function.iterate_succ_apply', ih, Classcomponent.click_committed]

theorem Memo.render_some (k : Container Memo.State) (c : MemoCache) (w : List String)
    (h : JS.Value) :
    Memo.render ⟨k, some c, w, h⟩ =
      if c.dep = k.state.number then ⟨k, some c, w, c.result⟩
      else ⟨k, some ⟨k.state.number, JS.mul k.state.number (.num 10000), c.computations + 1⟩,
            w ++ ["number is calclulating"], JS.mul k.state.number (.num 10000)⟩ := by
  by_cases hd : c.dep = k.state.number
  · simp [Memo.render, React.useMemo, JS.objectIs, hd]
  · simp [Memo.render, React.useMemo, JS.objectIs, hd, Memo.callback]

theorem Memo.render_cache (m : Memo.Instance) :
    ∃ c, (Memo.render m).cache = some c ∧ c.dep = m.container.state.number ∧
      (Memo.render m).handle = c.result ∧ (Memo.render m).container = m.container := by
  obtain ⟨k, cache, w, h⟩ := m
  cases cache with
  | none => exact ⟨_, rfl, rfl, rfl, rfl⟩
  | some c =>
    rw [Memo.render_some]
    by_cases hd : c.dep = k.state.number
    · rw [if_pos hd]; exact ⟨c, rfl, hd, rfl, rfl⟩
    · rw [if_neg hd]; exact ⟨_, rfl, rfl, rfl, rfl⟩

theorem Memo.rerender_rendered (m : Memo.Instance) (t : Memo.State) :
    (Memo.computations (Memo.rerender (Memo.render m) t)
        = Memo.computations (Memo.render m)
          + (if t.number = m.container.state.number then 0 else 1)) ∧
    ((Memo.rerender (Memo.render m) t).console.length
        = (Memo.render m).console.length
          + (if t.number = m.container.state.number then 0 else 1)) ∧
    (t.number = m.container.state.number →
      (Memo.rerender (Memo.render m) t).console = (Memo.render m).console ∧
      (Memo.rerender (Memo.render m) t).handle = (Memo.render m).handle) := by
  obtain ⟨c, hc, hdep, hres, -⟩ := Memo.render_cache m
  generalize Memo.render m = r at hc hres
  obtain ⟨k, cache, w, h⟩ := r
  simp only at hc hres
  subst hc hres
  simp only [Memo.rerender, Memo.render_some, Container.committed, hdep]
  by_cases hn : t.number = m.container.state.number
  · simp [hn, Memo.computations]
  · have hn2 : ¬ m.container.state.number = t.number := fun e => hn e.symm
    simp [hn, hn2, Memo.computations]

theorem Timer.inv_step (t : Timer.Instance) (e : Timer.Event) (h : Timer.Inv t) :
    Timer.Inv (Timer.step t e) := by
  obtain ⟨sec, iv, ts, nx, ph⟩ := t
  cases e with
  | mount =>
    cases ph with
    | constructed =>
      obtain ⟨h1, h2⟩ := h
      simp only at h1 h2
      subst h1 h2
      exact ⟨nx, rfl, rfl⟩
    | mounted => exact h
    | unmounted => exact h
  | unmount =>
    cases ph with
    | constructed => exact h
    | mounted =>
      obtain ⟨id, h1, h2⟩ := h
      simp only at h1 h2
      subst h1 h2
      simp [Timer.step, Timer.componentWillUnmount, Timer.Inv]
    | unmounted => exact h
  | tick =>
    have key : ∀ (l : List Nat) (s : Timer.Instance),
        (l.foldl (fun s _ => Timer.intervalCallback s) s).phase = s.phase ∧
        (l.foldl (fun s _ => Timer.intervalCallback s) s).timers = s.timers ∧
        (l.foldl (fun s _ => Timer.intervalCallback s) s).interval = s.interval := by
      intro l
      induction l with
      | nil => intro s; exact ⟨rfl, rfl, rfl⟩
      | cons a l ih => intro s; exact ih (Timer.intervalCallback s)
    obtain ⟨k1, k2, k3⟩ := key ts ⟨sec, iv, ts, nx, ph⟩
    unfold Timer.Inv at h ⊢
    simp only [Timer.step]
    rw [k1, k2, k3]
    exact h

theorem Timer.inv_run (es : List Timer.Event) (t : Timer.Instance) (h : Timer.Inv t) :
    Timer.Inv (Timer.run t es) := by
  induction es generalizing t with
  | nil => exact h
  | cons e es ih => exact ih (Timer.step t e) (Timer.inv_step t e h)

theorem Timer.step_unmounted (t : Timer.Instance) (e : Timer.Event)
    (hp : t.phase = .unmounted) (ht : t.timers = []) : Timer.step t e = t := by
  cases e with
  | mount => simp [Timer.step, hp]
  | unmount => simp [Timer.step, hp]
  | tick => simp [Timer.step, ht]

theorem Timer.run_unmounted (es : List Timer.Event) (t : Timer.Instance)
    (hp : t.phase = .unmounted) (ht : t.timers = []) : Timer.run t es = t := by
  induction es with
  | nil => rfl
  | cons e es ih =>
    show Timer.run (Timer.step t e) es = t
    rw [Timer.step_unmounted t e hp ht]
    exact ih

theorem Timer.run_ticks (k : Nat) (sec id nx : Nat) :
    Timer.run ⟨sec, some id, [id], nx, .mounted⟩ (List.replicate k .tick)
      = ⟨sec + k, some id, [id], nx, .mounted⟩ := by
  induction k generalizing sec with
  | zero => rfl
  | succ k ih =>
    show Timer.run (Timer.step ⟨sec, some id, [id], nx, .mounted⟩ .tick) (List.replicate k .tick) = _
    have e : Timer.step ⟨sec, some id, [id], nx, .mounted⟩ .tick
        = ⟨sec + 1, some id, [id], nx, .mounted⟩ := rfl
    rw [e, ih]
    simp [Nat.add_assoc, Nat.add_comm 1 k]

theorem JS.ofInt_of_safe (z : Int) (h : z.natAbs ≤ 2 ^ 53) : JS.ofInt z = .num z := by
  have hr : JS.roundToDouble z.natAbs = z.natAbs := by
    unfold JS.roundToDouble
    rw [if_pos h]
  have hb : ¬ JS.overflowBound ≤ z.natAbs := by
    have h1 : (2 : Nat) ^ 53 < JS.overflowBound := by decide
    omega
  unfold JS.ofInt
  rw [hr, if_neg hb]
  by_cases hz : z < 0
  · rw [if_pos hz]
    congr 1
    omega
  · rw [if_neg hz]
    congr 1
    omega

theorem JS.toJsString_of_safe (z : Int) (h : z.natAbs ≤ 2 ^ 53) :
    (JS.Value.num z).toJsString = toString z := by
  have h1 : z.natAbs < 10 ^ 21 := by
    have h2 : (2 : Nat) ^ 53 < 10 ^ 21 := by decide
    omega
  show (if z.natAbs < 10 ^ 21 then toString z
    else if z < 0 then "-" ++ JS.exponentForm z.natAbs else JS.exponentForm z.natAbs) = toString z
  rw [if_pos h1]

theorem FetchData.firstName_of_ne_null (u : JS.Json) (h : u ≠ .null) :
    FetchData.firstName u = .ok (u.member "firstName") := by
  cases u <;> first | exact absurd rfl h | rfl

theorem FetchData.arrayMap_li (l : List JS.Json) (n : Nat) (h : ∀ u ∈ l, u ≠ .null) :
    JS.arrayMap FetchData.li n l
      = .ok ((l.enumFrom n).map fun p => ⟨p.1, p.2.member "firstName"⟩) := by
  induction l generalizing n with
  | nil => rfl
  | cons a l ih =>
    have ha : FetchData.firstName a = .ok (a.member "firstName") :=
      FetchData.firstName_of_ne_null a (h a (List.mem_cons_self a l))
    have hl := ih (n + 1) fun u hu => h u (List.mem_cons_of_mem a hu)
    simp only [JS.arrayMap, FetchData.li, ha, hl, List.enumFrom, List.map_cons]
    rfl

theorem FetchData.renderList_records (l : List JS.Json) (h : ∀ u ∈ l, u ≠ .null) :
    FetchData.renderList l = .ok (l.enum.map fun p => ⟨p.1, p.2.member "firstName"⟩) :=
  FetchData.arrayMap_li l 0 h

theorem FetchData.keyAt_records (l : List JS.Json) (h : ∀ u ∈ l, u ≠ .null) (i : Nat)
    (u : JS.Json) (hi : l[i]? = some u) : FetchData.keyAt l i = some i := by
  unfold FetchData.keyAt
  rw [FetchData.renderList_records l h]
  simp [List.enum, List.getElem?_enumFrom, hi]

end Helpers

/-- C1, as stated, fails: `num1 + num2` is an addition of doubles, so with
`num1 = 2^53` and `num2 = 1` in state the heading shows 9007199254740992, not
the sum 9007199254740993. -/
theorem Parent.sum_heading_counterexample :
    (¬ ∀ a b : Int, Parent.sumHeading ⟨.num a, .num b⟩ = "Sum: " ++ toString (a + b)) ∧
    Parent.sumHeading ⟨.num 9007199254740992, .num 1⟩ = "Sum: 9007199254740992" ∧
    "Sum: " ++ toString (9007199254740992 + 1 : Int) = "Sum: 9007199254740993" := by
  refine ⟨fun h => ?_, by decide, by decide⟩
  have h1 := h 9007199254740992 1
  revert h1
  decide

/-- C1, amended: in `Parent`, for every pair of integers `num1` and `num2`
held in state that, like their sum, do not exceed `2^53` in absolute value, the
sum heading shows `num1 + num2`; for every value `v`, `setNum2(v)` leaves
`num1` unchanged, so the next render shows the JavaScript value of `num1 + v`;
with 3 and 4 it shows 7, and after `setNum2(10)` it shows 13 with `num1`
still 3. -/
theorem Parent.sum_heading_safe_integers :
    (∀ a b : Int, a.natAbs ≤ 2 ^ 53 → b.natAbs ≤ 2 ^ 53 → (a + b).natAbs ≤ 2 ^ 53 →
      Parent.sum ⟨.num a, .num b⟩ = .num (a + b) ∧
      Parent.sumHeading ⟨.num a, .num b⟩ = "Sum: " ++ toString (a + b)) ∧
    (∀ (s : Parent.State) (v : JS.Value),
      (Parent.setNum2 v (.committed s)).commit.state.num1 = s.num1 ∧
      (Parent.setNum2 v (.committed s)).commit.state.num2 = v ∧
      Parent.sumHeading (Parent.setNum2 v (.committed s)).commit.state
        = "Sum: " ++ (JS.add s.num1 v).toJsString) ∧
    Parent.sumHeading ⟨.num 3, .num 4⟩ = "Sum: 7" ∧
    (Parent.setNum2 (.num 10) (.committed ⟨.num 3, .num 4⟩)).commit.state
      = ⟨.num 3, .num 10⟩ ∧
    Parent.sumHeading (Parent.setNum2 (.num 10) (.committed ⟨.num 3, .num 4⟩)).commit.state
      = "Sum: 13" := by
  refine ⟨fun a b _ _ hab => ?_, fun s v => ⟨rfl, rfl, rfl⟩, by decide, by decide, by decide⟩
  have hs : Parent.sum ⟨.num a, .num b⟩ = .num (a + b) := JS.ofInt_of_safe (a + b) hab
  refine ⟨hs, ?_⟩
  unfold Parent.sumHeading
  rw [hs, JS.toJsString_of_safe (a + b) hab]

/-- The amended C1 at `num1 = 3`, `num2 = 4`: the sum is 7 and the heading
reads "Sum: 7". -/
theorem Parent.sum_heading_safe_integers_witness :
    Parent.sum ⟨.num 3, .num 4⟩ = .num (3 + 4) ∧
    Parent.sumHeading ⟨.num 3, .num 4⟩ = "Sum: " ++ toString (3 + 4 : Int) :=
  Parent.sum_heading_safe_integers.1 3 4 (by decide) (by decide) (by decide)

/-- C2: in `Classcomponent`, starting from the constructor state `count = 0`,
`n` clicks on the button, each followed by its commit, give `count = n`; two
clicks give `count = 2`. -/
theorem Classcomponent.clicks_count :
    (∀ n : Nat,
      (Classcomponent.click^[n] (.committed Classcomponent.initialState)).state.count = n) ∧
    (Classcomponent.click
      (Classcomponent.click (.committed Classcomponent.initialState))).state.count = 2 := by
  refine ⟨fun n => ?_, rfl⟩
  rw [Classcomponent.iterate_click]
  rfl

/-- C3: the heading that `render()` of `Classcomponent` produces at `count = 2`
reads "coount is 2" (the literal in the source is misspelt), which is not the
text "count is 2". -/
theorem Classcomponent.render_heading_at_two :
    Classcomponent.render ⟨2⟩ = "coount is 2" ∧
    Classcomponent.render ⟨2⟩ ≠ "count is " ++ toString (2 : Nat) ∧
    Classcomponent.render
      (Classcomponent.click
        (Classcomponent.click (.committed Classcomponent.initialState))).state
      ≠ "count is 2" := by
  refine ⟨by decide, by decide, by decide⟩

/-- C4: in `Memo`, between two consecutive renders the memoized computation
`number *10000` runs, and logs, exactly once if the `number` state changed and
not at all if it did not; going from 0 to 1 logs exactly once; a render caused
by `setName` alone does not recompute and shows the same value. -/
theorem Memo.recomputes_iff_number_changed :
    (∀ (s t : Memo.State) (cache : Option MemoCache) (console : List String)
        (handle : JS.Value),
      Memo.computations (Memo.rerender (Memo.render (Memo.idle s cache console handle)) t)
        = Memo.computations (Memo.render (Memo.idle s cache console handle))
          + (if t.number = s.number then 0 else 1) ∧
      (Memo.rerender (Memo.render (Memo.idle s cache console handle)) t).console.length
        = (Memo.render (Memo.idle s cache console handle)).console.length
          + (if t.number = s.number then 0 else 1)) ∧
    (Memo.computations (Memo.dispatch Memo.mounted .plus)
        = Memo.computations Memo.mounted + 1 ∧
      (Memo.dispatch Memo.mounted .plus).console
        = Memo.mounted.console ++ ["number is calclulating"] ∧
      Memo.mounted.container.state.number = .num 0 ∧
      (Memo.dispatch Memo.mounted .plus).container.state.number = .num 1) ∧
    (∀ (s : Memo.State) (cache : Option MemoCache) (console : List String)
        (handle : JS.Value) (value : String),
      Memo.computations
          (Memo.dispatch (Memo.render (Memo.idle s cache console handle)) (.changeName value))
        = Memo.computations (Memo.render (Memo.idle s cache console handle)) ∧
      (Memo.dispatch (Memo.render (Memo.idle s cache console handle)) (.changeName value)).console
        = (Memo.render (Memo.idle s cache console handle)).console ∧
      (Memo.dispatch (Memo.render (Memo.idle s cache console handle)) (.changeName value)).handle
        = (Memo.render (Memo.idle s cache console handle)).handle) := by
  refine ⟨fun s t cache console handle => ?_, by decide, fun s cache console handle value => ?_⟩
  · have h := Memo.rerender_rendered (Memo.idle s cache console handle) t
    exact ⟨h.1, h.2.1⟩
  · have h := Memo.rerender_rendered (Memo.idle s cache console handle) ⟨value, s.number⟩
    have e : Memo.dispatch (Memo.render (Memo.idle s cache console handle)) (.changeName value)
        = Memo.rerender (Memo.render (Memo.idle s cache console handle)) ⟨value, s.number⟩ := rfl
    rw [e]
    refine ⟨?_, (h.2.2 rfl).1, (h.2.2 rfl).2⟩
    simpa [Memo.idle, Container.committed] using h.1

/-- C5: in `Timer`, after mount and `k` ticks `seconds = k`; `componentWillUnmount`
clears the very handle `componentDidMount` created, so once the instance is
unmounted the handle is inactive, and whatever events follow leave the instance,
and so `seconds`, as the unmount left it. -/
theorem Timer.unmount_stops_interval (nextId : Nat) :
    (∀ k : Nat,
      Timer.run (Timer.init nextId) (.mount :: List.replicate k .tick)
        = ⟨k, some nextId, [nextId], nextId + 1, .mounted⟩) ∧
    (∀ k : Nat,
      Timer.run (Timer.init nextId) (.mount :: List.replicate k .tick ++ [.unmount])
        = ⟨k, some nextId, [], nextId + 1, .unmounted⟩) ∧
    (∀ es later : List Timer.Event,
      (Timer.run (Timer.init nextId) es).phase = .unmounted →
        Timer.active (Timer.run (Timer.init nextId) (es ++ later)) = false ∧
        (Timer.run (Timer.init nextId) (es ++ later)).timers = [] ∧
        (Timer.run (Timer.init nextId) (es ++ later)).seconds
          = (Timer.run (Timer.init nextId) es).seconds) := by
  have hmount : ∀ k : Nat,
      Timer.run (Timer.init nextId) (.mount :: List.replicate k .tick)
        = ⟨k, some nextId, [nextId], nextId + 1, .mounted⟩ := by
    intro k
    show Timer.run (Timer.step (Timer.init nextId) .mount) (List.replicate k .tick) = _
    have e : Timer.step (Timer.init nextId) .mount
        = ⟨0, some nextId, [nextId], nextId + 1, .mounted⟩ := rfl
    rw [e, Timer.run_ticks]
    simp
  refine ⟨hmount, fun k => ?_, fun es later hp => ?_⟩
  · have e : Timer.run (Timer.init nextId) (.mount :: List.replicate k .tick ++ [.unmount])
        = Timer.step (Timer.run (Timer.init nextId) (.mount :: List.replicate k .tick))
            .unmount := by
      simp [Timer.run, List.foldl_append]
    rw [e, hmount]
    simp [Timer.step, Timer.componentWillUnmount]
  · have hinv : Timer.Inv (Timer.run (Timer.init nextId) es) :=
      Timer.inv_run es _ ⟨rfl, rfl⟩
    have ht : (Timer.run (Timer.init nextId) es).timers = [] := by
      unfold Timer.Inv at hinv
      rw [hp] at hinv
      exact hinv
    have e : Timer.run (Timer.init nextId) (es ++ later)
        = Timer.run (Timer.run (Timer.init nextId) es) later := by
      simp [Timer.run, List.foldl_append]
    rw [e, Timer.run_unmounted later _ hp ht]
    refine ⟨?_, ht, rfl⟩
    unfold Timer.active
    rw [ht]
    cases (Timer.run (Timer.init nextId) es).interval <;> rfl

/-- The statement of C5 on a concrete run: mount, two ticks, unmount, then two
more seconds elapse; `seconds` stays 2. -/
theorem Timer.unmount_stops_interval_witness :
    (Timer.run (Timer.init 1) [.mount, .tick, .tick, .unmount]).phase = .unmounted ∧
    Timer.active (Timer.run (Timer.init 1) ([.mount, .tick, .tick, .unmount] ++ [.tick, .tick]))
      = false ∧
    (Timer.run (Timer.init 1) ([.mount, .tick, .tick, .unmount] ++ [.tick, .tick])).timers = [] ∧
    (Timer.run (Timer.init 1) ([.mount, .tick, .tick, .unmount] ++ [.tick, .tick])).seconds
      = (Timer.run (Timer.init 1) [.mount, .tick, .tick, .unmount]).seconds :=
  ⟨by decide,
    (Timer.unmount_stops_interval 1).2.2 [.mount, .tick, .tick, .unmount] [.tick, .tick]
      (by decide)⟩

/-- C6: in the list-keys `App`, the keys of the items rendered from
`listwithids` are the records' `id` fields, those of the items rendered from
`listwithoutids` are the item values, both families are pairwise distinct, and
every item (key and text) is a function of its list element alone, in list
order. -/
theorem ListKeys.keys_are_ids_and_distinct :
    ListKeys.App.1.map Li.key = ListKeys.listwithids.map (fun fruit => JS.Value.num fruit.id) ∧
    (ListKeys.App.1.map Li.key).Nodup ∧
    ListKeys.App.2.map Li.key = ListKeys.listwithoutids.map JS.Value.str ∧
    (ListKeys.App.2.map Li.key).Nodup ∧
    ListKeys.App.1 = ListKeys.listwithids.map ListKeys.liWithId ∧
    ListKeys.App.2 = ListKeys.listwithoutids.map ListKeys.liWithoutId ∧
    ListKeys.App.1.map Li.text
      = ["apple id is 1", "banana id is 2", "cherry id is 3", "date id is 4",
         "elderberry id is 5"] ∧
    ListKeys.App.2.map Li.text = ListKeys.listwithoutids := by
  refine ⟨by decide, by decide, by decide, by decide, rfl, rfl, by decide, by decide⟩

/-- C7, as stated, fails: `FetchData` keys each item by its index, so swapping
two distinct user records changes the key each of them gets. -/
theorem FetchData.key_of_record_counterexample :
    (¬ ∀ (users perm : List JS.Json), users.Nodup → perm.Perm users →
        (∀ u ∈ users, u ≠ .null) →
        ∀ (u : JS.Json) (i j : Nat), users[i]? = some u → perm[j]? = some u →
          FetchData.keyAt perm j = FetchData.keyAt users i) ∧
    FetchData.keyAt [FetchData.emily, FetchData.michael] 0 = some 0 ∧
    FetchData.keyAt [FetchData.michael, FetchData.emily] 1 = some 1 := by
  refine ⟨fun h => ?_, rfl, rfl⟩
  have hnd : [FetchData.emily, FetchData.michael].Nodup := by
    simp [FetchData.emily, FetchData.michael]
  have hrec : ∀ u ∈ [FetchData.emily, FetchData.michael], u ≠ JS.Json.null := by
    simp [FetchData.emily, FetchData.michael]
  have h1 := h [FetchData.emily, FetchData.michael] [FetchData.michael, FetchData.emily]
    hnd (List.Perm.swap _ _ _) hrec FetchData.emily 0 1 rfl rfl
  revert h1
  decide

/-- C7, amended: in `FetchData` the key of an item is its index in the array.
For an array of pairwise distinct records (none of them `null`) and a
permutation of it, the render returns one item per record, in array order, the
item at position `i` having key `i` and the record's `firstName` as child; a
record sits at one position only, its key is that position, and it gets the
same key in both renderings exactly when it sits at the same position in
both. -/
theorem FetchData.key_is_position (users perm : List JS.Json)
    (hnd : users.Nodup) (hp : perm.Perm users) (hrec : ∀ u ∈ users, u ≠ .null) :
    FetchData.renderList users
      = .ok (users.enum.map fun p => ⟨p.1, p.2.member "firstName"⟩) ∧
    FetchData.renderList perm
      = .ok (perm.enum.map fun p => ⟨p.1, p.2.member "firstName"⟩) ∧
    ∀ (u : JS.Json) (i j : Nat), users[i]? = some u → perm[j]? = some u →
      (∀ k : Nat, users[k]? = some u → k = i) ∧
      (∀ k : Nat, perm[k]? = some u → k = j) ∧
      FetchData.keyAt users i = some i ∧
      FetchData.keyAt perm j = some j ∧
      (FetchData.keyAt perm j = FetchData.keyAt users i ↔ j = i) := by
  have hrecp : ∀ u ∈ perm, u ≠ JS.Json.null := fun u hu => hrec u (hp.subset hu)
  have hndp : perm.Nodup := hp.symm.nodup hnd
  have uniq : ∀ (l : List JS.Json), l.Nodup → ∀ (u : JS.Json) (a b : Nat),
      l[a]? = some u → l[b]? = some u → b = a := by
    intro l hl u a b ha hb
    obtain ⟨ha1, ha2⟩ := List.getElem?_eq_some.mp ha
    obtain ⟨hb1, hb2⟩ := List.getElem?_eq_some.mp hb
    exact (hl.getElem_inj_iff.mp (hb2.trans ha2.symm))
  refine ⟨FetchData.renderList_records users hrec, FetchData.renderList_records perm hrecp, ?_⟩
  intro u i j hi hj
  have h1 := FetchData.keyAt_records users hrec i u hi
  have h2 := FetchData.keyAt_records perm hrecp j u hj
  refine ⟨fun k hk => uniq users hnd u i k hi hk, fun k hk => uniq perm hndp u j k hj hk,
    h1, h2, ?_⟩
  rw [h1, h2]
  constructor
  · intro e
    injection e
  · intro e
    rw [e]

/-- The amended C7 on the array `[emily, michael]` and its swap: the record
`emily` has key 0 in the first rendering and key 1 in the second. -/
theorem FetchData.key_is_position_witness :
    FetchData.keyAt [FetchData.emily, FetchData.michael] 0 = some 0 ∧
    FetchData.keyAt [FetchData.michael, FetchData.emily] 1 = some 1 ∧
    (FetchData.keyAt [FetchData.michael, FetchData.emily] 1
        = FetchData.keyAt [FetchData.emily, FetchData.michael] 0 ↔ 1 = 0) := by
  have h := (FetchData.key_is_position [FetchData.emily, FetchData.michael]
    [FetchData.michael, FetchData.emily]
    (by simp [FetchData.emily, FetchData.michael]) (List.Perm.swap _ _ _)
    (by simp [FetchData.emily, FetchData.michael])).2.2 FetchData.emily 0 1 rfl rfl
  exact ⟨h.2.2.1, h.2.2.2.1, h.2.2.2.2⟩

/-- C8, as stated, fails: at the mount states, running `handleSubmit`,
`handleLogin` or `increase` twice, the second run reading the state the first
one left, does not give the state that one run gives. -/
theorem React.handlers_idempotent_counterexample :
    twiceCommitted (fun c => (Form.handleSubmit ⟨false⟩ c).2) Form.init
      ≠ once (fun c => (Form.handleSubmit ⟨false⟩ c).2) Form.init ∧
    twiceCommitted Conditional.handleLogin Conditional.init
      ≠ once Conditional.handleLogin Conditional.init ∧
    twiceCommitted Classcomponent.increase Classcomponent.initialState
      ≠ once Classcomponent.increase Classcomponent.initialState := by
  refine ⟨by decide, by decide, by decide⟩

/-- C8, amended: the handlers are two toggles and an increment.  For every
state, two runs with a commit between them give the state back (`handleSubmit`,
`handleLogin`) or add 2 to `count` (`increase`), never what one run gives; two
runs inside one batch, both reading the state of the same render, give exactly
what one run gives. -/
theorem React.handlers_twice :
    (∀ (e : Form.SubmitEvent) (s : Form.State),
      twiceCommitted (fun c => (Form.handleSubmit e c).2) s = s ∧
      once (fun c => (Form.handleSubmit e c).2) s = { s with loggedin := !s.loggedin } ∧
      twiceCommitted (fun c => (Form.handleSubmit e c).2) s
        ≠ once (fun c => (Form.handleSubmit e c).2) s ∧
      twiceBatched (fun c => (Form.handleSubmit e c).2) s
        = once (fun c => (Form.handleSubmit e c).2) s) ∧
    (∀ s : Conditional.State,
      twiceCommitted Conditional.handleLogin s = s ∧
      once Conditional.handleLogin s = ⟨!s.isLoggedIn⟩ ∧
      twiceCommitted Conditional.handleLogin s ≠ once Conditional.handleLogin s ∧
      twiceBatched Conditional.handleLogin s = once Conditional.handleLogin s) ∧
    (∀ s : Classcomponent.State,
      twiceCommitted Classcomponent.increase s = ⟨s.count + 2⟩ ∧
      once Classcomponent.increase s = ⟨s.count + 1⟩ ∧
      twiceCommitted Classcomponent.increase s ≠ once Classcomponent.increase s ∧
      twiceBatched Classcomponent.increase s = once Classcomponent.increase s) := by
  refine ⟨fun e s => ?_, fun s => ?_, fun s => ?_⟩
  · obtain ⟨n, m, p, l⟩ := s
    cases l <;> exact ⟨rfl, rfl, by simp [twiceCommitted, once, Form.handleSubmit,
      Container.write, Container.commit, Container.committed], rfl⟩
  · obtain ⟨l⟩ := s
    cases l <;> exact ⟨rfl, rfl, by decide, rfl⟩
  · obtain ⟨n⟩ := s
    exact ⟨rfl, rfl, by simp [twiceCommitted, once, Classcomponent.increase,
      Container.write, Container.commit, Container.committed], rfl⟩

/-- C9, as stated, fails: on a rejected request the rejection of `fetchData`
is handled by nobody, and on the body `{"users": null}` the `users` state
becomes `null`, so the following render throws. -/
theorem FetchData.failure_caught_counterexample :
    (¬ ∀ request : Except FetchData.Failure FetchData.Response,
        FetchData.failureOutcome request = true →
          (FetchData.effect request (.committed FetchData.init)).unhandledRejection = none ∧
          ∃ items, FetchData.render (FetchData.stateAfter request) = .ok items) ∧
    FetchData.failureOutcome (.error .rejected) = true ∧
    (FetchData.effect (.error .rejected) (.committed FetchData.init)).unhandledRejection
      = some .rejected ∧
    FetchData.failureOutcome (.ok ⟨.ok (.object [("users", .null)])⟩) = true ∧
    (FetchData.stateAfter (.ok ⟨.ok (.object [("users", .null)])⟩)).users = some .null ∧
    FetchData.render (FetchData.stateAfter (.ok ⟨.ok (.object [("users", .null)])⟩))
      = .error .typeError := by
  refine ⟨fun h => ?_, rfl, rfl, rfl, rfl, rfl⟩
  have h1 := (h (.error .rejected) rfl).1
  revert h1
  decide

/-- C9, amended: `FetchData` catches nothing and has no error state.  When the
request is rejected, the body is not valid JSON, or the body is `null`, the
rejection of `fetchData` stays unhandled and `users` keeps its initial value
`[]`, so the following render does not fail and lists nothing.  When the body
is any other value, `users` is set to its `users` property as it is
(`undefined` when there is none), and unless that is an array the following
render throws at `users.map`. -/
theorem FetchData.failure_outcomes :
    (∀ e : FetchData.Failure,
      (FetchData.effect (.error e) (.committed FetchData.init)).unhandledRejection = some e ∧
      (FetchData.stateAfter (.error e)).users = some (.array []) ∧
      FetchData.render (FetchData.stateAfter (.error e)) = .ok []) ∧
    (∀ e : FetchData.Failure,
      (FetchData.effect (.ok ⟨.error e⟩) (.committed FetchData.init)).unhandledRejection
        = some e ∧
      (FetchData.stateAfter (.ok ⟨.error e⟩)).users = some (.array []) ∧
      FetchData.render (FetchData.stateAfter (.ok ⟨.error e⟩)) = .ok []) ∧
    ((FetchData.effect (.ok ⟨.ok .null⟩) (.committed FetchData.init)).unhandledRejection
        = some .typeError ∧
      (FetchData.stateAfter (.ok ⟨.ok .null⟩)).users = some (.array []) ∧
      FetchData.render (FetchData.stateAfter (.ok ⟨.ok .null⟩)) = .ok []) ∧
    (∀ data : JS.Json, data ≠ .null →
      (FetchData.effect (.ok ⟨.ok data⟩) (.committed FetchData.init)).unhandledRejection
        = none ∧
      (FetchData.stateAfter (.ok ⟨.ok data⟩)).users = data.member "users") ∧
    (∀ data : JS.Json, data ≠ .null →
      (∀ users : List JS.Json, data.member "users" ≠ some (.array users)) →
      FetchData.render (FetchData.stateAfter (.ok ⟨.ok data⟩)) = .error .typeError) := by
  have hdata : ∀ data : JS.Json, data ≠ .null →
      (FetchData.effect (.ok ⟨.ok data⟩) (.committed FetchData.init)).unhandledRejection
        = none ∧
      (FetchData.stateAfter (.ok ⟨.ok data⟩)).users = data.member "users" := by
    intro data hd
    cases data <;> first | exact absurd rfl hd | exact ⟨rfl, rfl⟩
  refine ⟨fun e => ⟨rfl, rfl, rfl⟩, fun e => ⟨rfl, rfl, rfl⟩, ⟨rfl, rfl, rfl⟩, hdata, ?_⟩
  intro data hd hno
  have hu := (hdata data hd).2
  unfold FetchData.render
  rw [hu]
  cases hm : data.member "users" with
  | none => rfl
  | some v =>
    cases v with
    | array users => exact absurd hm (hno users)
    | null => rfl
    | bool b => rfl
    | number literal => rfl
    | string s => rfl
    | object members => rfl

/-- The amended C9 on the body `{"users": null}`: nothing is rejected, `users`
becomes `null`, and the following render throws. -/
theorem FetchData.failure_outcomes_witness :
    (FetchData.stateAfter (.ok ⟨.ok (.object [("users", .null)])⟩)).users = some .null ∧
    FetchData.render (FetchData.stateAfter (.ok ⟨.ok (.object [("users", .null)])⟩))
      = .error .typeError :=
  ⟨(FetchData.failure_outcomes.2.2.2.1 (.object [("users", .null)]) (by simp)).2,
    FetchData.failure_outcomes.2.2.2.2 (.object [("users", .null)]) (by simp)
      (fun users h => by
        have h2 : some JS.Json.null = some (JS.Json.array users) := h
        cases h2)⟩

/-- C10: in `Memo`, typing `5` into the number input stores the string "5";
the `+` click that follows stores `"5" + 1`, the string "51", so the number
shown goes from 50000 to 510000, not to 60000; from the initial state a `+`
click does go from 0 to 1 and from 0 to 10000. -/
theorem Memo.plus_after_number_input :
    (Memo.run [.changeNumber "5"]).container.state.number = .str "5" ∧
    (Memo.run [.changeNumber "5"]).handle = .num 50000 ∧
    (Memo.run [.changeNumber "5", .plus]).container.state.number = .str "51" ∧
    (Memo.run [.changeNumber "5", .plus]).handle = .num 510000 ∧
    (Memo.run [.changeNumber "5", .plus]).handle ≠ .num (50000 + 10000) ∧
    (Memo.run [.plus]).container.state.number = .num 1 ∧
    (Memo.run [.plus]).handle = .num 10000 := by
  refine ⟨by decide, by decide, by decide, by decide, by decide, by decide, by decide⟩
